import Mathlib

/-!
Shallow embedding of the Chronos reminder application (src/types.ts,
src/services/geminiService.ts, src/components/AudioRecorder.tsx and the
unnamed App component in src/unnamed/part_000).

External, impure platform capabilities (the network response from the
inference provider, JSON.parse, base64 encoding, fresh ids from
crypto.randomUUID, the wall clock) are modelled as explicit parameters;
all the repository's own logic is translated directly from the source.
-/

/-- `ParseStatus` from src/types.ts. -/
inductive ParseStatus where
  | IDLE
  | RECORDING
  | PROCESSING
  | SUCCESS
  | ERROR
deriving DecidableEq, Repr

/-- `ReminderData` from src/types.ts.  `confidence_score` is a JS number used
only with exact decimal literals here, modelled as a rational. -/
structure ReminderData where
  reminder_content : String
  scheduled_time : String
  confidence_score : Rat
deriving DecidableEq, Repr

/-- The JS literal `0.5` as an exact rational. -/
def half : Rat := mkRat 5 10

/-- The `isValid` computation of the `ReminderCard` component (src/types.ts
bundle): `data.confidence_score >= 0.5 && data.scheduled_time !== ""`. -/
def isValid (data : ReminderData) : Bool :=
  decide (half ≤ data.confidence_score) && data.scheduled_time != ""

/-- JSON values, as produced by the platform `JSON.parse`. -/
inductive Json where
  | null
  | bool (b : Bool)
  | num (q : Rat)
  | str (s : String)
  | arr (xs : List Json)
  | obj (fields : List (String × Json))

/-- Field access on a parsed JS value: `undefined` (here `none`) when the
value is not an object or the key is absent. -/
def Json.getField : Json → String → Option Json
  | .obj fields, key => fields.lookup key
  | _, _ => none

/-- Whether a parsed response object carries all three `ReminderData`
fields.  `parseInput` itself never checks this: the `as ReminderData` cast
in src/services/geminiService.ts is erased at runtime. -/
def hasAllReminderFields (j : Json) : Bool :=
  (j.getField "reminder_content").isSome
    && (j.getField "scheduled_time").isSome
    && (j.getField "confidence_score").isSome

/-- The `input` argument of `parseInput`: `string | { data, mimeType }`. -/
inductive GeminiInput where
  | textual (s : String)
  | audioInput (data : String) (mimeType : String)

/-- Failure modes of `parseInput` (each `throw` site, plus a transport
failure of the provider call itself, which the catch block rethrows). -/
inductive GeminiError where
  | missingApiKey
  | transportError
  | noResponse
  | jsonParseError
deriving DecidableEq, Repr

/-- The success value of `parseInput`: `{ data: ReminderData, rawText }`.
`data` is kept as the raw parsed JSON because the source performs no
runtime conversion or validation on it. -/
structure ParseResult where
  data : Json
  rawText : String

/-- The `rawText` computation in `parseInput`:
`typeof input === 'string' ? input : "(Audio Transcription handled by AI)"`. -/
def rawTextOf : GeminiInput → String
  | .textual s => s
  | .audioInput _ _ => "(Audio Transcription handled by AI)"

/-- `parseInput` from src/services/geminiService.ts.  `apiKey` is
`process.env.API_KEY` (`none` = unset; the JS falsy test also treats `""`
as missing).  `response` is the outcome of the provider call:
`Except.error` when the transport throws, otherwise the optional response
text `response.text` (`none` = undefined).  `jsonParse` is the platform
`JSON.parse`, returning `none` when it throws. -/
def parseInput (apiKey : Option String) (input : GeminiInput)
    (response : Except Unit (Option String))
    (jsonParse : String → Option Json) : Except GeminiError ParseResult :=
  match apiKey with
  | none => .error .missingApiKey
  | some key =>
    if key = "" then .error .missingApiKey
    else
      match response with
      | .error _ => .error .transportError
      | .ok responseText =>
        match responseText with
        | none => .error .noResponse
        | some t =>
          if t = "" then .error .noResponse
          else
            match jsonParse t with
            | none => .error .jsonParseError
            | some parsedData => .ok ⟨parsedData, rawTextOf input⟩

/-- Whether the optional response text is JS-falsy (`!responseText`):
`undefined` or the empty string. -/
def falsyText : Option String → Bool
  | none => true
  | some s => s = ""

/-- `parseInput` "fails by propagating an error and does not return a
result". -/
def isFailure : Except GeminiError ParseResult → Bool
  | .error _ => true
  | .ok _ => false

/-! ## Audio capture unit (src/components/AudioRecorder.tsx) -/

/-- A JS `Blob`: the list of chunk payloads it concatenates and its `type`
property. -/
structure BlobModel where
  parts : List String
  type : String
deriving DecidableEq, Repr

/-- `new Blob(chunks, { type })`: the type stored is exactly the option
given to the constructor. -/
def newBlob (chunks : List String) (t : String) : BlobModel := ⟨chunks, t⟩

/-- The `onstop` handler's completion values
(src/components/AudioRecorder.tsx): it builds
`new Blob(chunksRef.current, { type: 'audio/webm' })`, base64-encodes it
via a FileReader, and invokes `onRecordingComplete(base64String, blob.type)`.
`recorderMime` is the codec/container type the platform `MediaRecorder`
negotiated (`mediaRecorder.mimeType`); `encodeBase64` is the platform
FileReader encoding.  Returns the `(base64Data, mimeType)` pair passed to
the callback. -/
def onstopCompletion (chunks : List String) (recorderMime : String)
    (encodeBase64 : BlobModel → String) : String × String :=
  let blob := newBlob chunks "audio/webm"
  (encodeBase64 blob, blob.type)

/-- The resource handles of one recording session.  `tracks` is the
microphone stream's hardware tracks (`true` = stopped); the `Set` flags say
whether the corresponding ref currently holds a handle, the other flags
whether the resource has been released. -/
structure RecorderResources where
  tracks : List Bool
  audioContextSet : Bool
  contextClosed : Bool
  animationFrameSet : Bool
  animationCancelled : Bool
  timerSet : Bool
  timerCleared : Bool
deriving DecidableEq, Repr

/-- The cleanup tail of the `onstop` handler:
`stream.getTracks().forEach(track => track.stop())`, then close
`audioContextRef.current` if set, then cancel `animationFrameRef.current`
if set. -/
def onstopCleanup (s : RecorderResources) : RecorderResources :=
  let s1 := { s with tracks := s.tracks.map fun _ => true }
  let s2 := if s1.audioContextSet then { s1 with contextClosed := true } else s1
  if s2.animationFrameSet then { s2 with animationCancelled := true } else s2

/-- The unmount cleanup effect of `AudioRecorder`: clear the timer if set,
cancel the animation frame if set, close the audio context if set.  It
never touches the stream's tracks (the stream is a local of
`startRecording` and is not reachable from any ref the effect reads). -/
def unmountCleanup (s : RecorderResources) : RecorderResources :=
  let s1 := if s.timerSet then { s with timerCleared := true } else s
  let s2 := if s1.animationFrameSet then { s1 with animationCancelled := true } else s1
  if s2.audioContextSet then { s2 with contextClosed := true } else s2

/-- Resource state right after `startRecording` succeeded with `n` live
microphone tracks: audio context created and stored, visualizer loop
handle stored, duration timer started, nothing released yet. -/
def afterStartRecording (n : Nat) : RecorderResources :=
  { tracks := List.replicate n false
    audioContextSet := true
    contextClosed := false
    animationFrameSet := true
    animationCancelled := false
    timerSet := true
    timerCleared := false }

/-- All three resources of the spec's teardown contract are released:
every microphone track stopped, analysis context closed, visualization
loop cancelled. -/
def allReleased (s : RecorderResources) : Bool :=
  s.tracks.all (fun t => t) && s.contextClosed && s.animationCancelled

/-! ## Session orchestrator (the App component, src/unnamed/part_000) -/

/-- `HistoryItem` from src/types.ts: `ReminderData` plus id, creation
timestamp and the original input.  `createdAt` is the instant at which
`new Date()` was evaluated during item construction, as epoch
milliseconds (the source stores its ISO-8601 rendering, a monotone image
of this instant). -/
structure HistoryItem where
  reminder_content : String
  scheduled_time : String
  confidence_score : Rat
  id : String
  createdAt : Nat
  originalInput : String
deriving DecidableEq, Repr

/-- The `newItem` construction in `processInput`:
`{ ...data, id: generateId(), createdAt: new Date().toISOString(), originalInput: rawText }`.
`freshId` is the value `generateId()` returned (a `crypto.randomUUID`
draw supplied by the environment) and `createTime` the clock reading. -/
def mkHistoryItem (data : ReminderData) (freshId : String) (createTime : Nat)
    (rawText : String) : HistoryItem :=
  { reminder_content := data.reminder_content
    scheduled_time := data.scheduled_time
    confidence_score := data.confidence_score
    id := freshId
    createdAt := createTime
    originalInput := rawText }

/-- The App component's state: the four `useState` cells the orchestrator
owns, plus the multiset of scheduled but not yet fired `setTimeout`
resets.  Each pending reset records the delay it was scheduled with and
the `status` value its closure captured (the value of the render that
created the submitting `processInput` call). -/
structure AppState where
  status : ParseStatus
  textInput : String
  history : List HistoryItem
  errorMsg : Option String
  pendingResets : List (Nat × ParseStatus)
deriving DecidableEq, Repr

/-- The initial App state: `IDLE`, empty text, empty history, no error,
no timer scheduled. -/
def initState : AppState :=
  { status := .IDLE
    textInput := ""
    history := []
    errorMsg := none
    pendingResets := [] }

/-- One complete `processInput` cycle, atomically: sets `PROCESSING` and
clears the error, awaits the inference `outcome` (the result of
`parseInput`, with its `ReminderData` well-typed as the App consumes it),
then either prepends the new history item and sets `SUCCESS`, or sets
`ERROR` with the fixed message; the `finally` block schedules a
2000 ms reset whose closure captured the `status` of the submitting
render (the state at entry). -/
def processInputStep (outcome : Except GeminiError (ReminderData × String))
    (freshId : String) (createTime : Nat) (st : AppState) : AppState :=
  let captured := st.status
  match outcome with
  | .ok (data, rawText) =>
    { st with
        status := .SUCCESS
        errorMsg := none
        history := mkHistoryItem data freshId createTime rawText :: st.history
        pendingResets := st.pendingResets ++ [(2000, captured)] }
  | .error _ =>
    { st with
        status := .ERROR
        errorMsg := some "Failed to process input. Please try again."
        pendingResets := st.pendingResets ++ [(2000, captured)] }

/-- The platform `String.prototype.trim()`: strips leading and trailing
whitespace. -/
def jsTrim (s : String) : String :=
  ⟨((s.data.dropWhile Char.isWhitespace).reverse.dropWhile
      Char.isWhitespace).reverse⟩

/-- `handleTextSubmit`: returns without any state change when
`textInput.trim()` is empty (the JS guard `if (!textInput.trim()) return`),
otherwise runs `processInput(textInput)` and then clears the text field. -/
def handleTextSubmitStep (outcome : Except GeminiError (ReminderData × String))
    (freshId : String) (createTime : Nat) (st : AppState) : AppState :=
  if jsTrim st.textInput = "" then st
  else
    let st1 := processInputStep outcome freshId createTime st
    { st1 with textInput := "" }

/-- Firing the scheduled reset at index `i` of the pending list: the
callback runs `if (status !== ParseStatus.RECORDING) setStatus(IDLE)`
against its captured `status`, and the timer is consumed. -/
def fireResetStep (i : Nat) (st : AppState) : AppState :=
  match st.pendingResets.get? i with
  | none => st
  | some r =>
    let st1 := if r.2 = ParseStatus.RECORDING then st
               else { st with status := .IDLE }
    { st1 with pendingResets := st1.pendingResets.eraseIdx i }

/-- The orchestrator-relevant events of a session.  Submission events
carry the environment their cycle consumed: the inference outcome, the
generated id and the creation-time clock reading. -/
inductive AppEvent where
  | setText (s : String)
  | textSubmit (outcome : Except GeminiError (ReminderData × String))
      (freshId : String) (createTime : Nat)
  | audioComplete (outcome : Except GeminiError (ReminderData × String))
      (freshId : String) (createTime : Nat)
  | fireReset (i : Nat)

/-- The step function of the orchestrator: typing updates the text field,
text submission goes through `handleTextSubmit`, a finished audio
recording goes directly through `processInput`, and an elapsed timer
fires its reset. -/
def step (e : AppEvent) (st : AppState) : AppState :=
  match e with
  | .setText s => { st with textInput := s }
  | .textSubmit outcome freshId createTime =>
      handleTextSubmitStep outcome freshId createTime st
  | .audioComplete outcome freshId createTime =>
      processInputStep outcome freshId createTime st
  | .fireReset i => fireResetStep i st

/-- Run a trace of events from a given state. -/
def runFrom (st : AppState) (tr : List AppEvent) : AppState :=
  tr.foldl (fun s e => step e s) st

/-- Run a trace of events from the initial state. -/
def run (tr : List AppEvent) : AppState := runFrom initState tr

/-- The ids the environment hands to a trace's submission events. -/
def eventIds : AppEvent → List String
  | .textSubmit _ freshId _ => [freshId]
  | .audioComplete _ freshId _ => [freshId]
  | _ => []

/-! ## Theorems -/

/-- C9 — For every `ReminderData`, the `ReminderCard` consumer treats it
as invalid whenever `scheduled_time` is the empty string, regardless of
`confidence_score`; and treats it as valid whenever
`confidence_score >= 0.5` and `scheduled_time` is non-empty. -/
theorem reminderCard_validity (data : ReminderData) :
    (data.scheduled_time = "" → isValid data = false)
    ∧ (half ≤ data.confidence_score → data.scheduled_time ≠ "" →
        isValid data = true) := by
  constructor
  · intro h
    simp [isValid, h]
  · intro h1 h2
    simp [isValid, h1, h2]

/-- Witness for `reminderCard_validity` at concrete reminder data. -/
theorem reminderCard_validity_witness :
    isValid ⟨"call mom", "", mkRat 9 10⟩ = false
    ∧ isValid ⟨"call mom", "2024-01-02T17:00:00Z", 1⟩ = true :=
  ⟨(reminderCard_validity ⟨"call mom", "", mkRat 9 10⟩).1 rfl,
   (reminderCard_validity ⟨"call mom", "2024-01-02T17:00:00Z", 1⟩).2
     (by decide) (by decide)⟩

/-- C2 counterexample — when the platform recorder reports
"audio/ogg;codecs=opus" as the negotiated type, the completion callback
still receives the substituted constant "audio/webm": the reported type is
not propagated. -/
theorem onstop_mime_counterexample :
    (onstopCompletion ["chunk0"] "audio/ogg;codecs=opus" fun _ => "").2
        ≠ "audio/ogg;codecs=opus"
    ∧ (onstopCompletion ["chunk0"] "audio/ogg;codecs=opus" fun _ => "").2
        = "audio/webm" := by
  exact ⟨by decide, rfl⟩

/-- C2 amended — the MIME type passed to the completion callback is the
fixed string "audio/webm" on every completed recording, independently of
the codec/container type the platform recorder reported. -/
theorem onstop_mime_fixed (chunks : List String) (recorderMime : String)
    (enc : BlobModel → String) :
    (onstopCompletion chunks recorderMime enc).2 = "audio/webm" := rfl

/-- C4 counterexample — discarding the component while a recording is
still active (one live microphone track) runs the unmount cleanup, which
leaves the hardware track unstopped: not all three resources are
released on this exit path. -/
theorem unmount_leak_counterexample :
    allReleased (unmountCleanup (afterStartRecording 1)) = false
    ∧ (unmountCleanup (afterStartRecording 1)).tracks = [false] := by
  exact ⟨rfl, rfl⟩

/-- C4 amended — stopping a recording (the `onstop` handler) stops every
microphone track and, when their handles are set (as they are after
`startRecording`), closes the analysis context and cancels the
visualization loop; discarding the component closes the context and
cancels the loop when set, but never stops the microphone tracks. -/
theorem cleanup_release_amended (s : RecorderResources) :
    (s.audioContextSet = true → s.animationFrameSet = true →
        allReleased (onstopCleanup s) = true)
    ∧ (onstopCleanup s).tracks.all (fun t => t) = true
    ∧ (s.audioContextSet = true → (unmountCleanup s).contextClosed = true)
    ∧ (s.animationFrameSet = true →
        (unmountCleanup s).animationCancelled = true)
    ∧ (unmountCleanup s).tracks = s.tracks := by
  refine ⟨?_, ?_, ?_, ?_, ?_⟩
  · intro h1 h2
    simp [onstopCleanup, h1, h2, allReleased, List.all_eq_true]
  · by_cases hc : s.audioContextSet <;> by_cases ha : s.animationFrameSet <;>
      simp [onstopCleanup, hc, ha, List.all_eq_true]
  · intro h1
    by_cases ht : s.timerSet <;> by_cases ha : s.animationFrameSet <;>
      simp [unmountCleanup, h1, ht, ha]
  · intro h2
    by_cases ht : s.timerSet <;> by_cases hc : s.audioContextSet <;>
      simp [unmountCleanup, h2, ht, hc]
  · by_cases ht : s.timerSet <;> by_cases ha : s.animationFrameSet <;>
      by_cases hc : s.audioContextSet <;> simp [unmountCleanup, ht, ha, hc]

/-- Witness for `cleanup_release_amended` right after a recording started
with two live tracks. -/
theorem cleanup_release_amended_witness :
    allReleased (onstopCleanup (afterStartRecording 2)) = true
    ∧ (unmountCleanup (afterStartRecording 2)).contextClosed = true :=
  ⟨(cleanup_release_amended (afterStartRecording 2)).1 rfl rfl,
   (cleanup_release_amended (afterStartRecording 2)).2.2.1 rfl⟩

/-- C6 — For every text submission whose input is empty or
whitespace-only, the App state is returned entirely unchanged (no history
item, status untouched) and the result does not depend on any inference
outcome: the guard returns before `processInput` is reached. -/
theorem empty_text_submit_noop (st : AppState)
    (outcome : Except GeminiError (ReminderData × String))
    (freshId : String) (createTime : Nat)
    (h : jsTrim st.textInput = "") :
    step (AppEvent.textSubmit outcome freshId createTime) st = st := by
  simp [step, handleTextSubmitStep, h]

/-- Witness for `empty_text_submit_noop` on a whitespace-only input. -/
theorem empty_text_submit_noop_witness :
    step (AppEvent.textSubmit (Except.error GeminiError.noResponse) "id1" 5)
        { initState with textInput := "   " }
      = { initState with textInput := "   " } :=
  empty_text_submit_noop { initState with textInput := "   " }
    (Except.error GeminiError.noResponse) "id1" 5 (by decide)

/-- C5 — For every submission whose inference call throws (audio path
directly, text path under its non-empty guard), the status becomes ERROR,
the fixed error message is set, and the history sequence is exactly the
one from before the submission. -/
theorem inference_error_blocks_submission_only (st : AppState)
    (e : GeminiError) (freshId : String) (createTime : Nat) :
    ((step (AppEvent.audioComplete (Except.error e) freshId createTime) st).status
          = ParseStatus.ERROR
      ∧ (step (AppEvent.audioComplete (Except.error e) freshId createTime) st).errorMsg
          = some "Failed to process input. Please try again."
      ∧ (step (AppEvent.audioComplete (Except.error e) freshId createTime) st).history
          = st.history)
    ∧ (step (AppEvent.textSubmit (Except.error e) freshId createTime) st).history
        = st.history
    ∧ (jsTrim st.textInput ≠ "" →
        (step (AppEvent.textSubmit (Except.error e) freshId createTime) st).status
            = ParseStatus.ERROR
        ∧ (step (AppEvent.textSubmit (Except.error e) freshId createTime) st).errorMsg
            = some "Failed to process input. Please try again.") := by
  refine ⟨⟨rfl, rfl, rfl⟩, ?_, ?_⟩
  · simp only [step, handleTextSubmitStep]
    split
    · rfl
    · rfl
  · intro h
    simp [step, handleTextSubmitStep, h, processInputStep]

/-- Witness for `inference_error_blocks_submission_only` on a concrete
failing text submission. -/
theorem inference_error_blocks_witness :
    (step (AppEvent.textSubmit (Except.error GeminiError.transportError) "a" 0)
        { initState with textInput := "hi" }).status = ParseStatus.ERROR :=
  ((inference_error_blocks_submission_only { initState with textInput := "hi" }
      GeminiError.transportError "a" 0).2.2 (by decide)).1

/-- One successful submission cycle's environment: the well-typed
extraction result, the `rawText` the Inference Client returned, the
generated id and the creation-time clock reading. -/
structure Submission where
  data : ReminderData
  rawText : String
  freshId : String
  createTime : Nat

/-- The history item a successful submission creates. -/
def submittedItem (sub : Submission) : HistoryItem :=
  mkHistoryItem sub.data sub.freshId sub.createTime sub.rawText

/-- Run a sequence of successful `processInput` cycles. -/
def runSubmissions (st : AppState) (subs : List Submission) : AppState :=
  subs.foldl
    (fun s sub =>
      processInputStep (Except.ok (sub.data, sub.rawText)) sub.freshId
        sub.createTime s) st

theorem runSubmissions_history (subs : List Submission) (st : AppState) :
    (runSubmissions st subs).history
      = (subs.map submittedItem).reverse ++ st.history := by
  induction subs generalizing st with
  | nil => simp [runSubmissions]
  | cons sub rest ih =>
    have hstep : runSubmissions st (sub :: rest)
        = runSubmissions
            (processInputStep (Except.ok (sub.data, sub.rawText)) sub.freshId
              sub.createTime st) rest := rfl
    rw [hstep, ih]
    simp [processInputStep, submittedItem]

/-- C7 — After every successful submission the newly created history item
is at index 0, and N successful sequential submissions starting from a
fresh session yield a history that is the reverse of insertion order. -/
theorem history_newest_first (st : AppState) (sub : Submission)
    (subs : List Submission) :
    (processInputStep (Except.ok (sub.data, sub.rawText)) sub.freshId
        sub.createTime st).history.head? = some (submittedItem sub)
    ∧ (runSubmissions initState subs).history
        = (subs.map submittedItem).reverse := by
  constructor
  · simp [processInputStep, submittedItem]
  · simpa [initState] using runSubmissions_history subs initState

/-- The App never assigns `RECORDING` to its status cell, so neither the
live status nor any captured status of a pending reset is `RECORDING`. -/
def NoRecording (st : AppState) : Prop :=
  st.status ≠ ParseStatus.RECORDING
  ∧ ∀ r ∈ st.pendingResets, r.2 ≠ ParseStatus.RECORDING

theorem noRecording_init : NoRecording initState := by
  constructor
  · simp [initState]
  · intro r hr
    simp [initState] at hr

theorem noRecording_processInput
    (outcome : Except GeminiError (ReminderData × String))
    (freshId : String) (createTime : Nat) (st : AppState)
    (h : NoRecording st) :
    NoRecording (processInputStep outcome freshId createTime st) := by
  cases outcome with
  | ok p =>
    refine ⟨by simp [processInputStep], ?_⟩
    intro r hr
    simp [processInputStep] at hr
    rcases hr with hr | hr
    · exact h.2 r hr
    · rw [hr]
      exact h.1
  | error e =>
    refine ⟨by simp [processInputStep], ?_⟩
    intro r hr
    simp [processInputStep] at hr
    rcases hr with hr | hr
    · exact h.2 r hr
    · rw [hr]
      exact h.1

theorem noRecording_step (e : AppEvent) (st : AppState) (h : NoRecording st) :
    NoRecording (step e st) := by
  cases e with
  | setText s => exact ⟨h.1, h.2⟩
  | audioComplete outcome freshId createTime =>
    exact noRecording_processInput outcome freshId createTime st h
  | textSubmit outcome freshId createTime =>
    simp only [step, handleTextSubmitStep]
    split
    · exact h
    · have h1 := noRecording_processInput outcome freshId createTime st h
      exact ⟨h1.1, h1.2⟩
  | fireReset i =>
    simp only [step, fireResetStep]
    cases hg : st.pendingResets.get? i with
    | none => exact h
    | some r =>
      by_cases hr : r.2 = ParseStatus.RECORDING
      · simp only [hr, if_pos rfl]
        refine ⟨h.1, ?_⟩
        intro x hx
        exact h.2 x ((st.pendingResets.eraseIdx_sublist i).subset hx)
      · simp only [if_neg hr]
        refine ⟨by simp, ?_⟩
        intro x hx
        simp only at hx
        exact h.2 x ((st.pendingResets.eraseIdx_sublist i).subset hx)

theorem noRecording_runFrom (tr : List AppEvent) (st : AppState)
    (h : NoRecording st) : NoRecording (runFrom st tr) := by
  induction tr generalizing st with
  | nil => exact h
  | cons e rest ih => exact ih (step e st) (noRecording_step e st h)

theorem noRecording_run (tr : List AppEvent) : NoRecording (run tr) :=
  noRecording_runFrom tr initState noRecording_init

/-- C3 — Every processing cycle ends in SUCCESS or ERROR and schedules a
reset with the fixed 2000 ms delay; and in every reachable session state,
when any scheduled reset's delay elapses, the status becomes IDLE — the
captured-status guard can never block it, no matter what actions the user
started in the meantime. -/
theorem reset_always_fires_to_idle (tr : List AppEvent)
    (outcome : Except GeminiError (ReminderData × String))
    (freshId : String) (createTime : Nat) :
    (((processInputStep outcome freshId createTime (run tr)).status
          = ParseStatus.SUCCESS
        ∨ (processInputStep outcome freshId createTime (run tr)).status
          = ParseStatus.ERROR)
      ∧ (processInputStep outcome freshId createTime (run tr)).pendingResets
          = (run tr).pendingResets ++ [(2000, (run tr).status)])
    ∧ ∀ (tr2 : List AppEvent) (i : Nat) (r : Nat × ParseStatus),
        (run tr2).pendingResets.get? i = some r →
        (fireResetStep i (run tr2)).status = ParseStatus.IDLE := by
  constructor
  · constructor
    · cases outcome with
      | ok p => exact Or.inl (by simp [processInputStep])
      | error e => exact Or.inr (by simp [processInputStep])
    · cases outcome with
      | ok p => simp [processInputStep]
      | error e => simp [processInputStep]
  · intro tr2 i r hget
    have hnr := noRecording_run tr2
    have hmem : r ∈ (run tr2).pendingResets := List.get?_mem hget
    have hne : r.2 ≠ ParseStatus.RECORDING := hnr.2 r hmem
    simp only [fireResetStep, hget, if_neg hne]

/-- Witness for `reset_always_fires_to_idle`: the reset scheduled by a
failed audio submission fires and yields IDLE. -/
theorem reset_always_fires_to_idle_witness :
    (fireResetStep 0
        (run [AppEvent.audioComplete (Except.error GeminiError.noResponse)
          "w" 0])).status = ParseStatus.IDLE :=
  (reset_always_fires_to_idle [] (Except.error GeminiError.noResponse)
      "w" 0).2
    [AppEvent.audioComplete (Except.error GeminiError.noResponse) "w" 0] 0
    (2000, ParseStatus.IDLE) rfl

/-- The platform `JSON.parse` restricted to the response bodies used in
the concrete theorems below: the text "\x7b\x7d" parses to the empty
object, anything else throws. -/
def jsonParseStub : String → Option Json :=
  fun t => if t = "\x7b\x7d" then some (Json.obj []) else none

/-- C1 counterexample — a response body consisting of an empty JSON
object parses successfully but misses all three ReminderData fields, yet
`parseInput` returns it as a success instead of failing: the
`as ReminderData` cast performs no field validation. -/
theorem parseInput_missing_fields_counterexample :
    hasAllReminderFields (Json.obj []) = false
    ∧ isFailure (parseInput (some "key") (GeminiInput.textual "x")
        (Except.ok (some "\x7b\x7d")) jsonParseStub) = false
    ∧ parseInput (some "key") (GeminiInput.textual "x")
        (Except.ok (some "\x7b\x7d")) jsonParseStub
        = Except.ok ⟨Json.obj [], "x"⟩ :=
  ⟨rfl, rfl, rfl⟩

/-- C1 amended — `parseInput` fails by propagating an error whenever the
response body is empty (or undefined) or is not parseable as JSON; but a
body that parses to an object missing ReminderData fields is returned
unchanged as a success (field presence is delegated to the provider-side
response schema). -/
theorem parseInput_failure_modes (apiKey : Option String)
    (input : GeminiInput) (response : Except Unit (Option String))
    (jsonParse : String → Option Json) :
    (∀ rt, response = Except.ok rt → falsyText rt = true →
        isFailure (parseInput apiKey input response jsonParse) = true)
    ∧ (∀ t, response = Except.ok (some t) → jsonParse t = none →
        isFailure (parseInput apiKey input response jsonParse) = true)
    ∧ (∀ key t j, apiKey = some key → key ≠ "" →
        response = Except.ok (some t) → t ≠ "" → jsonParse t = some j →
        parseInput apiKey input response jsonParse
          = Except.ok ⟨j, rawTextOf input⟩) := by
  refine ⟨?_, ?_, ?_⟩
  · intro rt hres hfalsy
    subst hres
    cases apiKey with
    | none => rfl
    | some key =>
      by_cases hk : key = ""
      · simp [parseInput, hk, isFailure]
      · cases rt with
        | none => simp [parseInput, hk, isFailure]
        | some t =>
          have ht : t = "" := by simpa [falsyText] using hfalsy
          subst ht
          simp [parseInput, hk, isFailure]
  · intro t hres hj
    subst hres
    cases apiKey with
    | none => rfl
    | some key =>
      by_cases hk : key = ""
      · simp [parseInput, hk, isFailure]
      · by_cases ht : t = ""
        · subst ht
          simp [parseInput, hk, isFailure]
        · simp [parseInput, hk, ht, hj, isFailure]
  · intro key t j hkey hk hres ht hj
    subst hkey
    subst hres
    simp [parseInput, hk, ht, hj]

/-- Witness for `parseInput_failure_modes` on an undefined response
body. -/
theorem parseInput_failure_modes_witness :
    isFailure (parseInput (some "key") (GeminiInput.textual "x")
        (Except.ok none) jsonParseStub) = true :=
  (parseInput_failure_modes (some "key") (GeminiInput.textual "x")
      (Except.ok none) jsonParseStub).1 none rfl rfl

theorem parseInput_ok_rawText {apiKey : Option String}
    {input : GeminiInput} {response : Except Unit (Option String)}
    {jsonParse : String → Option Json} {r : ParseResult}
    (h : parseInput apiKey input response jsonParse = Except.ok r) :
    r.rawText = rawTextOf input := by
  cases apiKey with
  | none => simp [parseInput] at h
  | some key =>
    by_cases hk : key = ""
    · simp [parseInput, hk] at h
    · cases response with
      | error u => simp [parseInput, hk] at h
      | ok rt =>
        cases rt with
        | none => simp [parseInput, hk] at h
        | some t =>
          by_cases ht : t = ""
          · simp [parseInput, hk, ht] at h
          · cases hj : jsonParse t with
            | none => simp [parseInput, hk, ht, hj] at h
            | some j =>
              simp [parseInput, hk, ht, hj] at h
              subst h
              rfl

/-- C8 — For every successful `parseInput` call, the returned `rawText`
is the literal input string on the text path and the fixed placeholder
string on the audio path; and a history item built from that call (as
`processInput` does) has `originalInput` equal to this `rawText`. -/
theorem rawText_literal_or_placeholder (apiKey : Option String)
    (input : GeminiInput) (response : Except Unit (Option String))
    (jsonParse : String → Option Json) (r : ParseResult)
    (h : parseInput apiKey input response jsonParse = Except.ok r) :
    (∀ s, input = GeminiInput.textual s → r.rawText = s)
    ∧ (∀ d m, input = GeminiInput.audioInput d m →
        r.rawText = "(Audio Transcription handled by AI)")
    ∧ ∀ (st : AppState) (data : ReminderData) (freshId : String)
        (createTime : Nat),
        (processInputStep (Except.ok (data, r.rawText)) freshId createTime
            st).history.head?
          = some (mkHistoryItem data freshId createTime r.rawText)
        ∧ (mkHistoryItem data freshId createTime r.rawText).originalInput
          = r.rawText := by
  have hr := parseInput_ok_rawText h
  refine ⟨?_, ?_, ?_⟩
  · intro s hs
    subst hs
    simpa [rawTextOf] using hr
  · intro d m hm
    subst hm
    simpa [rawTextOf] using hr
  · intro st data freshId createTime
    exact ⟨by simp [processInputStep], rfl⟩

/-- Witness for `rawText_literal_or_placeholder` on a concrete successful
text call. -/
theorem rawText_literal_or_placeholder_witness :
    ParseResult.rawText ⟨Json.obj [], "call mom"⟩ = "call mom"
    ∧ (mkHistoryItem ⟨"call mom", "2024-01-02T17:00:00Z", 1⟩ "idw" 7
        "call mom").originalInput = "call mom" :=
  ⟨(rawText_literal_or_placeholder (some "key")
      (GeminiInput.textual "call mom") (Except.ok (some "\x7b\x7d"))
      jsonParseStub ⟨Json.obj [], "call mom"⟩ rfl).1 "call mom" rfl,
   ((rawText_literal_or_placeholder (some "key")
      (GeminiInput.textual "call mom") (Except.ok (some "\x7b\x7d"))
      jsonParseStub ⟨Json.obj [], "call mom"⟩ rfl).2.2 initState
      ⟨"call mom", "2024-01-02T17:00:00Z", 1⟩ "idw" 7).2⟩

theorem step_history_cases (e : AppEvent) (st : AppState) :
    (step e st).history = st.history
    ∨ ∃ item : HistoryItem, (step e st).history = item :: st.history
        ∧ item.id ∈ eventIds e := by
  cases e with
  | setText s => exact Or.inl rfl
  | fireReset i =>
    left
    simp only [step, fireResetStep]
    cases hg : st.pendingResets.get? i with
    | none => simp [hg]
    | some r =>
      by_cases hr : r.2 = ParseStatus.RECORDING <;> simp [hg, hr]
  | audioComplete outcome freshId createTime =>
    cases outcome with
    | ok p =>
      obtain ⟨d, rtext⟩ := p
      right
      exact ⟨mkHistoryItem d freshId createTime rtext,
        by simp [step, processInputStep], by simp [eventIds, mkHistoryItem]⟩
    | error e2 => exact Or.inl rfl
  | textSubmit outcome freshId createTime =>
    simp only [step, handleTextSubmitStep]
    split
    · exact Or.inl rfl
    · cases outcome with
      | ok p =>
        obtain ⟨d, rtext⟩ := p
        right
        exact ⟨mkHistoryItem d freshId createTime rtext,
          by simp [processInputStep], by simp [eventIds, mkHistoryItem]⟩
      | error e2 => exact Or.inl rfl

theorem historyIds_nodup_aux (tr : List AppEvent) (st : AppState)
    (h1 : (st.history.map HistoryItem.id).Nodup)
    (h2 : ((tr.map eventIds).flatten).Nodup)
    (h3 : ∀ x ∈ (tr.map eventIds).flatten,
        x ∉ st.history.map HistoryItem.id) :
    ((runFrom st tr).history.map HistoryItem.id).Nodup := by
  induction tr generalizing st with
  | nil => exact h1
  | cons e rest ih =>
    have hjoin : (((e :: rest).map eventIds).flatten)
        = eventIds e ++ (rest.map eventIds).flatten := by simp
    rw [hjoin] at h2 h3
    have h2r : ((rest.map eventIds).flatten).Nodup :=
      (List.nodup_append.mp h2).2.1
    have hdisj : (eventIds e).Disjoint ((rest.map eventIds).flatten) :=
      (List.nodup_append.mp h2).2.2
    show ((runFrom (step e st) rest).history.map HistoryItem.id).Nodup
    rcases step_history_cases e st with heq | ⟨item, heq, hid⟩
    · apply ih (step e st)
      · rw [heq]
        exact h1
      · exact h2r
      · intro x hx
        rw [heq]
        exact h3 x (List.mem_append_right _ hx)
    · apply ih (step e st)
      · rw [heq]
        simp only [List.map_cons, List.nodup_cons]
        exact ⟨h3 item.id (List.mem_append_left _ hid), h1⟩
      · exact h2r
      · intro x hx
        rw [heq]
        simp only [List.map_cons, List.mem_cons, not_or]
        constructor
        · intro hxid
          exact hdisj hid (hxid ▸ hx)
        · exact h3 x (List.mem_append_right _ hx)

/-- C10 — In every session whose environment hands out pairwise-distinct
generated ids (the idealisation of `crypto.randomUUID`), all history item
ids are pairwise distinct; and the item created by a successful inference
call carries as `createdAt` the clock reading taken during its
construction, which under a monotone clock is no earlier than the call's
start time. -/
theorem history_ids_unique_and_fresh_timestamps (tr : List AppEvent)
    (hids : ((tr.map eventIds).flatten).Nodup) :
    ((run tr).history.map HistoryItem.id).Nodup
    ∧ ∀ (st : AppState) (data : ReminderData) (rawText freshId : String)
        (startTime createTime : Nat), startTime ≤ createTime →
        (processInputStep (Except.ok (data, rawText)) freshId createTime
            st).history.head?
          = some (mkHistoryItem data freshId createTime rawText)
        ∧ startTime
            ≤ (mkHistoryItem data freshId createTime rawText).createdAt := by
  constructor
  · apply historyIds_nodup_aux tr initState
    · simp [initState]
    · exact hids
    · intro x hx
      simp [initState]
  · intro st data rawText freshId startTime createTime hle
    exact ⟨by simp [processInputStep], hle⟩

/-- Witness for `history_ids_unique_and_fresh_timestamps`: a session with
one successful and one failed submission under distinct ids. -/
theorem history_ids_unique_witness :
    ((run [AppEvent.audioComplete (Except.ok
          (⟨"call mom", "2024-01-02T17:00:00Z", 1⟩, "call mom")) "id-a" 5,
        AppEvent.audioComplete (Except.error GeminiError.noResponse)
          "id-b" 6]).history.map HistoryItem.id).Nodup
    ∧ (3 : Nat) ≤ (mkHistoryItem ⟨"call mom", "2024-01-02T17:00:00Z", 1⟩
        "id-a" 5 "call mom").createdAt :=
  ⟨(history_ids_unique_and_fresh_timestamps
      [AppEvent.audioComplete (Except.ok
          (⟨"call mom", "2024-01-02T17:00:00Z", 1⟩, "call mom")) "id-a" 5,
        AppEvent.audioComplete (Except.error GeminiError.noResponse)
          "id-b" 6] (by decide)).1,
   ((history_ids_unique_and_fresh_timestamps
      [AppEvent.audioComplete (Except.ok
          (⟨"call mom", "2024-01-02T17:00:00Z", 1⟩, "call mom")) "id-a" 5,
        AppEvent.audioComplete (Except.error GeminiError.noResponse)
          "id-b" 6] (by decide)).2 initState
      ⟨"call mom", "2024-01-02T17:00:00Z", 1⟩ "call mom" "id-a" 3 5
      (by decide)).2⟩
